import Mathlib

/-!
Verification of the conditioner repository module registry
(src/src/conditioner/ModuleRegistry.js) and of the BoundModule lifecycle
described by the specification.

The registry is a JavaScript object with two plain-object fields,
`_options` and `_redirects`.  We embed JavaScript plain objects as
association lists keyed by strings, where property read of an absent key
yields `undefined`, and property write prepends a binding (reads take the
first binding, so a later write shadows an earlier one, matching the
last-write-wins semantics of JavaScript assignment).  JavaScript values
are embedded as `JSVal`, with the standard truthiness predicate, because
the registry uses `||` (truthiness based choice) in its lookups.

Method calls on the registry are embedded in explicit state-passing
style: each operation returns its result together with the registry
state after the call, so that frame properties (reads do not mutate) are
statable.
-/

set_option autoImplicit false

namespace Conditioner

/-- Embedding of a JavaScript value, sufficient for the registry:
`undefined`, `null`, booleans, (integer) numbers, strings and opaque
objects identified by a tag. -/
inductive JSVal where
  | undefined : JSVal
  | null : JSVal
  | bool : Bool → JSVal
  | num : Int → JSVal
  | str : String → JSVal
  | obj : Nat → JSVal
deriving DecidableEq, Repr

/-- JavaScript truthiness: `undefined`, `null`, `false`, `0` and the
empty string are falsy, everything else (in our fragment) is truthy. -/
def truthy : JSVal → Bool
  | .undefined => false
  | .null => false
  | .bool b => b
  | .num n => n != 0
  | .str s => s != ""
  | .obj _ => true

/-- Property read on a JavaScript plain object embedded as an
association list: the first binding for the key, if any. -/
def jsGet {α : Type} (m : List (String × α)) (k : String) : Option α :=
  (m.find? (fun p => p.1 == k)).map Prod.snd

/-- Property read returning `undefined` for an absent key, as the `[]`
operator does in JavaScript. -/
def jsIndex (m : List (String × JSVal)) (k : String) : JSVal :=
  (jsGet m k).getD .undefined

/-- Property write on a JavaScript plain object: prepend the binding
(reads take the first binding, so this is last-write-wins). -/
def jsSet {α : Type} (m : List (String × α)) (k : String) (v : α) :
    List (String × α) :=
  (k, v) :: m

/-- The module loader collaborator (`_options.loader` in the source): we
only need its `toUrl` path-resolution function; its `config` method is an
external side effect, recorded by `registerModule` as an emitted call. -/
structure Loader where
  toUrl : String → String

/-- State of the `ModuleRegistry` object: the `_options` map (resolved
path to configuration options) and the `_redirects` map (alias to path). -/
structure ModuleRegistry where
  _options : List (String × JSVal)
  _redirects : List (String × String)
deriving DecidableEq

/-- The initial registry state: both maps start as empty objects. -/
def emptyRegistry : ModuleRegistry := ⟨[], []⟩

/-- `ModuleRegistry.registerModule(path, options, alias)`: stores the
options under `loader.toUrl(path)`, records the redirect `alias → path`
when `alias` is truthy (`none` models an absent or undefined argument),
and passes `(path, options)` to `loader.config`; the emitted config call
is returned alongside the new state.  The source raises no error. -/
def registerModule (loader : Loader) (reg : ModuleRegistry) (path : String)
    (options : JSVal) (al : Option String) :
    ModuleRegistry × (String × JSVal) :=
  let reg1 : ModuleRegistry :=
    { reg with _options := jsSet reg._options (loader.toUrl path) options }
  let reg2 : ModuleRegistry :=
    match al with
    | some a =>
        if a != "" then { reg1 with _redirects := jsSet reg1._redirects a path }
        else reg1
    | none => reg1
  (reg2, (path, options))

/-- `ModuleRegistry.getRedirect(path)`: `this._redirects[path] || path`.
Returns the stored target when it is truthy (a non-empty string), the
input otherwise; the state after the call is returned unchanged. -/
def getRedirect (reg : ModuleRegistry) (path : String) :
    String × ModuleRegistry :=
  (match jsGet reg._redirects path with
   | some t => if t != "" then t else path
   | none => path,
   reg)

/-- The error message thrown by `getModule` on an empty path. -/
def getModuleErrorMsg : String :=
  "ModuleRegistry.getModule(path): \"path\" is a required parameter."

/-- `ModuleRegistry.getModule(path)`: throws when `path` is falsy (the
empty string in our string-typed embedding), otherwise evaluates
`this._options[path] || this._options[_options.loader.toUrl(path)]`;
the state after the call is returned unchanged. -/
def getModule (loader : Loader) (reg : ModuleRegistry) (path : String) :
    Except String JSVal × ModuleRegistry :=
  if path == "" then (.error getModuleErrorMsg, reg)
  else
    let first := jsIndex reg._options path
    (.ok (if truthy first then first else jsIndex reg._options (loader.toUrl path)),
     reg)

/-- Registry states reachable from the empty registry by `registerModule`
calls (the only mutating operation). -/
inductive ReachableReg (loader : Loader) : ModuleRegistry → Prop where
  | init : ReachableReg loader emptyRegistry
  | step (reg : ModuleRegistry) (path : String) (options : JSVal)
      (al : Option String) : ReachableReg loader reg →
      ReachableReg loader (registerModule loader reg path options al).1

/-- A loader that resolves every path to itself. -/
def idLoader : Loader := ⟨fun s => s⟩

/-- A loader under which the as-given form and the resolved absolute
form of a path can differ: `q` resolves to `p` and `p` resolves to `u`. -/
def chainLoader : Loader :=
  ⟨fun s => if s = "q" then "p" else if s = "p" then "u" else s⟩

/-- Registry obtained by registering options for `p` (stored under `u`)
and then falsy options for `q` (stored under `p`), so that the key `p`
holds a falsy value while `u` holds a truthy one. -/
def falsyOptionsRegistry : ModuleRegistry :=
  (registerModule chainLoader
    ((registerModule chainLoader emptyRegistry "p" (JSVal.str "x") none).1)
    "q" (JSVal.bool false) none).1

/-- Registry obtained by registering the empty path under the alias `a`,
so that the redirects map holds the binding `a` to the empty string. -/
def emptyTargetRegistry : ModuleRegistry :=
  (registerModule idLoader emptyRegistry "" JSVal.undefined (some "a")).1

/-- Registry with a single redirect from `a` to `p`. -/
def plainRedirectRegistry : ModuleRegistry := ⟨[], [("a", "p")]⟩

/-- Registry obtained by registering `m` under the empty alias and then
registering replacement options for `m` with no alias. -/
def emptyAliasRegistry : ModuleRegistry :=
  (registerModule idLoader
    ((registerModule idLoader emptyRegistry "m" (JSVal.str "x") (some "")).1)
    "m" (JSVal.str "y") none).1

/-- Registry obtained by registering `q` under alias `a` and then
registering the empty path under the same alias `a`, so the latest
recorded target for `a` is the empty string. -/
def latestEmptyRegistry : ModuleRegistry :=
  (registerModule idLoader
    ((registerModule idLoader emptyRegistry "q" (JSVal.str "x") (some "a")).1)
    "" (JSVal.str "y") (some "a")).1

/-- Registry obtained by registering options for `p` (stored under `p`
itself) and then registering the empty path with no alias, leaving a
falsy-valued binding for the empty key in the options map. -/
def nullOptionRegistry : ModuleRegistry :=
  (registerModule idLoader
    ((registerModule idLoader emptyRegistry "p" JSVal.null none).1)
    "" JSVal.undefined (some "a")).1

/-- Registry obtained by a single registration of `p` under alias `a`,
with options stored for the target but none for the alias itself. -/
def aliasOnlyRegistry : ModuleRegistry :=
  (registerModule idLoader emptyRegistry "p" (JSVal.str "x") (some "a")).1

/-- Modelled from the spec: the lifecycle states of a BoundModule (the
BoundModule implementation is not under src/, only the specification
describes it). -/
inductive Lifecycle where
  | Unmounted : Lifecycle
  | Mounted : Lifecycle
deriving DecidableEq, Repr

/-- Modelled from the spec: a BoundModule holds the `matches` flags of
the monitors instantiated for the Condition terms of its
ContextExpression, its current lifecycle state, and the number of live
module instances it holds (an instance handle is created on mounting and
discarded on unmounting). -/
structure BoundModule where
  monitors : List Bool
  lifecycle : Lifecycle
  liveInstances : Nat
deriving DecidableEq, Repr

/-- Modelled from the spec: the combined match of a ContextExpression is
the conjunction of all constituent monitors, vacuously true for an empty
expression. -/
def combinedMatch (bm : BoundModule) : Bool :=
  bm.monitors.all id

/-- Modelled from the spec: mounting is a no-op when already Mounted;
otherwise it constructs a module instance and enters the Mounted state. -/
def mountBM (bm : BoundModule) : BoundModule :=
  match bm.lifecycle with
  | .Mounted => bm
  | .Unmounted =>
      { bm with lifecycle := .Mounted, liveInstances := bm.liveInstances + 1 }

/-- Modelled from the spec: unmounting is a no-op when already
Unmounted; otherwise it invokes the captured destructor, discards the
instance handle and enters the Unmounted state. -/
def unmountBM (bm : BoundModule) : BoundModule :=
  match bm.lifecycle with
  | .Unmounted => bm
  | .Mounted =>
      { bm with lifecycle := .Unmounted, liveInstances := bm.liveInstances - 1 }

/-- Modelled from the spec: a re-evaluation mounts the module when the
combined match is true and unmounts it otherwise. -/
def evaluateBM (bm : BoundModule) : BoundModule :=
  if combinedMatch bm then mountBM bm else unmountBM bm

/-- Modelled from the spec: a change notification from monitor `i`
updates its `matches` flag before the shared callback re-evaluates. -/
def setMonitor (bm : BoundModule) (i : Nat) (b : Bool) : BoundModule :=
  { bm with monitors := bm.monitors.set i b }

/-- Modelled from the spec: at discovery a BoundModule starts Unmounted
with no live instance, holding the initial monitor states. -/
def initialBM (ms : List Bool) : BoundModule :=
  ⟨ms, .Unmounted, 0⟩

/-- Modelled from the spec: the reachable BoundModule states are those
produced by hydration (first evaluation, performed synchronously) and by
any sequence of monitor change notifications, each followed by the
synchronous re-evaluation wired by the Hydrator. -/
inductive ReachableBM : BoundModule → Prop where
  | hydrate (ms : List Bool) : ReachableBM (evaluateBM (initialBM ms))
  | change (bm : BoundModule) (i : Nat) (b : Bool) : ReachableBM bm →
      ReachableBM (evaluateBM (setMonitor bm i b))

/-- The BoundModule state invariant: Mounted exactly when the combined
match holds, and the instance count agrees with the lifecycle state. -/
def bmInvariant (bm : BoundModule) : Prop :=
  (bm.lifecycle = Lifecycle.Mounted ↔ combinedMatch bm = true) ∧
  bm.liveInstances = (if bm.lifecycle = Lifecycle.Mounted then 1 else 0)

theorem jsGet_cons {α : Type} (k : String) (v : α) (m : List (String × α))
    (q : String) :
    jsGet ((k, v) :: m) q = if k = q then some v else jsGet m q := by
  by_cases h : k = q <;>
    simp [jsGet, List.find?, h, beq_iff_eq, beq_false_of_ne]

theorem jsGet_set_same {α : Type} (m : List (String × α)) (k : String) (v : α) :
    jsGet (jsSet m k v) k = some v := by
  simp [jsSet, jsGet_cons]

theorem jsGet_set_other {α : Type} (m : List (String × α)) (k q : String)
    (v : α) (h : k ≠ q) :
    jsGet (jsSet m k v) q = jsGet m q := by
  simp [jsSet, jsGet_cons, h]

theorem jsGet_nil {α : Type} (q : String) :
    jsGet ([] : List (String × α)) q = none := rfl

/-- In a reachable registry state the redirects map never has a binding
for the empty alias, because `registerModule` only records truthy
aliases. -/
theorem reachable_no_empty_alias (loader : Loader) (reg : ModuleRegistry)
    (h : ReachableReg loader reg) : jsGet reg._redirects "" = none := by
  induction h with
  | init => rfl
  | step reg path options al _ ih =>
      cases al with
      | none => simpa [registerModule] using ih
      | some a =>
          by_cases ha : a = ""
          · simpa [registerModule, ha] using ih
          · simpa [registerModule, ha, jsSet, jsGet_cons] using ih

/-- `registerModule` always writes the options under the resolved
absolute path, whatever the alias argument is. -/
theorem registerModule_options (loader : Loader) (reg : ModuleRegistry)
    (path : String) (options : JSVal) (al : Option String) :
    (registerModule loader reg path options al).1._options =
      jsSet reg._options (loader.toUrl path) options := by
  cases al with
  | none => rfl
  | some a => by_cases h : a = "" <;> simp [registerModule, h]

/-- `registerModule` with a truthy alias records the redirect. -/
theorem registerModule_redirects_truthy (loader : Loader)
    (reg : ModuleRegistry) (path : String) (options : JSVal) (a : String)
    (h : a ≠ "") :
    (registerModule loader reg path options (some a)).1._redirects =
      jsSet reg._redirects a path := by
  simp [registerModule, h]

/-- `registerModule` with a falsy alias leaves the redirects map alone. -/
theorem registerModule_redirects_falsy (loader : Loader)
    (reg : ModuleRegistry) (path : String) (options : JSVal)
    (al : Option String) (h : al = none ∨ al = some "") :
    (registerModule loader reg path options al).1._redirects =
      reg._redirects := by
  rcases h with h | h <;> simp [registerModule, h]

/-- `getModule` reads the registry only through its `_options` map. -/
theorem getModule_depends_only_on_options (loader : Loader)
    (reg1 reg2 : ModuleRegistry) (p : String)
    (h : reg1._options = reg2._options) :
    (getModule loader reg1 p).1 = (getModule loader reg2 p).1 := by
  by_cases hp : p = "" <;> simp [getModule, hp, h]

/-- A synchronous re-evaluation establishes the BoundModule invariant
from any state whose instance count agrees with its lifecycle state. -/
theorem evaluateBM_establishes (bm : BoundModule)
    (h : bm.liveInstances = (if bm.lifecycle = Lifecycle.Mounted then 1 else 0)) :
    bmInvariant (evaluateBM bm) := by
  by_cases hm : bm.monitors.all id <;>
    cases hl : bm.lifecycle <;>
      simp_all [bmInvariant, evaluateBM, combinedMatch, mountBM, unmountBM, hl]

/-- Every reachable BoundModule state satisfies the invariant. -/
theorem reachableBM_invariant (bm : BoundModule) (h : ReachableBM bm) :
    bmInvariant bm := by
  induction h with
  | hydrate ms =>
      exact evaluateBM_establishes (initialBM ms) (by simp [initialBM])
  | change bm i b hr ih =>
      exact evaluateBM_establishes (setMonitor bm i b)
        (by simpa [setMonitor] using ih.2)

/-- Claim C2, counterexample: the claim says a non-empty path returns
the options stored under the path as given when there are any, but the
code tests truthiness, not presence.  In `falsyOptionsRegistry` the key
`p` holds the stored value `false`, yet `getModule` returns the value
`"x"` stored under the resolved form `u` of `p`. -/
theorem getModule_stored_falsy_counterexample :
    jsGet falsyOptionsRegistry._options "p" = some (JSVal.bool false) ∧
    (getModule chainLoader falsyOptionsRegistry "p").1 =
      Except.ok (JSVal.str "x") ∧
    JSVal.str "x" ≠ JSVal.bool false :=
  ⟨rfl, rfl, by decide⟩

/-- Claim C2 (amended): `getModule` fails with the invalid-argument
error exactly when the path is empty; a non-empty path never fails and
yields the options stored under the path as given when those are truthy,
and otherwise whatever the options map holds under the resolved absolute
form of the path (`undefined` when nothing is stored there); the call
leaves the registry state unchanged. -/
theorem getModule_spec (loader : Loader) (reg : ModuleRegistry)
    (path : String) :
    ((getModule loader reg path).1 = Except.error getModuleErrorMsg ↔
      path = "") ∧
    (path ≠ "" → (getModule loader reg path).1 =
      Except.ok (if truthy (jsIndex reg._options path) = true then
          jsIndex reg._options path
        else jsIndex reg._options (loader.toUrl path))) ∧
    (getModule loader reg path).2 = reg := by
  by_cases h : path = "" <;> simp [getModule, h]

/-- Witness for C2 at a concrete input: looking up `p` in the empty
registry succeeds and yields the undefined value. -/
theorem getModule_spec_witness :
    (getModule idLoader emptyRegistry "p").1 =
      Except.ok (if truthy (jsIndex emptyRegistry._options "p") = true then
          jsIndex emptyRegistry._options "p"
        else jsIndex emptyRegistry._options (idLoader.toUrl "p")) :=
  (getModule_spec idLoader emptyRegistry "p").2.1 (by decide)

/-- Claim C3, counterexample: the claim says every registered redirect
resolves to its recorded target, but a recorded empty-string target is
falsy, so `getRedirect` falls back to the input.  In
`emptyTargetRegistry` the alias `a` has the registered target `""`, yet
`getRedirect` returns `a`. -/
theorem getRedirect_registered_falsy_counterexample :
    jsGet emptyTargetRegistry._redirects "a" = some "" ∧
    (getRedirect emptyTargetRegistry "a").1 = "a" ∧ "a" ≠ "" :=
  ⟨rfl, rfl, by decide⟩

/-- Claim C3 (amended): `getRedirect` never fails; it returns the
recorded target when one is registered and non-empty, returns the input
unchanged when no redirect is recorded or the recorded target is the
empty string, and leaves the registry state unchanged. -/
theorem getRedirect_total (reg : ModuleRegistry) (name : String) :
    (∀ t, jsGet reg._redirects name = some t → t ≠ "" →
      (getRedirect reg name).1 = t) ∧
    (jsGet reg._redirects name = none ∨ jsGet reg._redirects name = some "" →
      (getRedirect reg name).1 = name) ∧
    (getRedirect reg name).2 = reg := by
  refine ⟨?_, ?_, rfl⟩
  · intro t ht hne
    simp [getRedirect, ht, hne]
  · intro h
    rcases h with h | h <;> simp [getRedirect, h]

/-- Witness for C3 at a concrete input: the registered redirect from `a`
to `p` resolves to `p`. -/
theorem getRedirect_total_witness :
    (getRedirect plainRedirectRegistry "a").1 = "p" :=
  (getRedirect_total plainRedirectRegistry "a").1 "p" rfl (by decide)

/-- Claim C6: the read operations `getRedirect` and `getModule` leave
the registry state, and so both the options map and the redirects map,
exactly unchanged for every state and argument. -/
theorem reads_do_not_mutate (loader : Loader) (reg : ModuleRegistry)
    (p q : String) :
    (getRedirect reg p).2 = reg ∧ (getModule loader reg q).2 = reg := by
  refine ⟨rfl, ?_⟩
  by_cases h : q = "" <;> simp [getModule, h]

/-- Claim C8: a call of `registerModule` with a falsy alias (absent,
undefined — both modelled by `none` — or the empty string) records no
redirect: the redirects map is literally unchanged, so `getRedirect`
behaves on every input exactly as before the call; in particular, in any
state with no binding for the empty key — as in every state reachable
through `registerModule` — `getRedirect` of the empty string returns the
empty string. -/
theorem register_falsy_alias_no_redirect (loader : Loader)
    (reg : ModuleRegistry) (path : String) (options : JSVal)
    (al : Option String) (h : al = none ∨ al = some "") :
    (registerModule loader reg path options al).1._redirects =
      reg._redirects ∧
    (∀ q, (getRedirect (registerModule loader reg path options al).1 q).1 =
      (getRedirect reg q).1) ∧
    (jsGet reg._redirects "" = none → (getRedirect reg "").1 = "") := by
  have hred := registerModule_redirects_falsy loader reg path options al h
  refine ⟨hred, ?_, ?_⟩
  · intro q
    simp [getRedirect, hred]
  · intro h0
    simp [getRedirect, h0]

/-- Witness for C8 at a concrete input: registering `p` with no alias
leaves the empty redirects map empty. -/
theorem register_falsy_alias_no_redirect_witness :
    (registerModule idLoader emptyRegistry "p" (JSVal.str "x") none).1._redirects =
      emptyRegistry._redirects :=
  (register_falsy_alias_no_redirect idLoader emptyRegistry "p"
    (JSVal.str "x") none (Or.inl rfl)).1

/-- Claim C10: both lookups use truthiness, not key presence.  When the
options held under the path as given are falsy (undefined, null, false,
zero, or the empty string), `getModule` falls through to the entry under
the resolved absolute form of the path; when the recorded target of an
alias is the falsy string (the empty string), `getRedirect` returns the
input alias unchanged. -/
theorem lookup_by_truthiness (loader : Loader) (reg : ModuleRegistry)
    (p a : String) :
    (p ≠ "" → truthy (jsIndex reg._options p) = false →
      (getModule loader reg p).1 =
        Except.ok (jsIndex reg._options (loader.toUrl p))) ∧
    (jsGet reg._redirects a = some "" → (getRedirect reg a).1 = a) := by
  constructor
  · intro hp hf
    simp [getModule, hp, hf]
  · intro h
    simp [getRedirect, h]

/-- Witness for C10 at a concrete input: in `nullOptionRegistry` the key
`p` holds `null`, so the lookup of `p` falls through to the resolved
form of `p`, and the alias `a` with recorded empty target resolves to
itself. -/
theorem lookup_by_truthiness_witness :
    (getModule idLoader nullOptionRegistry "p").1 =
      Except.ok (jsIndex nullOptionRegistry._options (idLoader.toUrl "p")) ∧
    (getRedirect nullOptionRegistry "a").1 = "a" :=
  ⟨(lookup_by_truthiness idLoader nullOptionRegistry "p" "a").1
      (by decide) rfl,
   (lookup_by_truthiness idLoader nullOptionRegistry "p" "a").2 rfl⟩

/-- Claim C4: every `registerModule(path, options, alias)` call stores
the options under the loader-resolved absolute form of the path, leaves
every other options key as it was, records the redirect when a (truthy)
alias is supplied, emits exactly the config call `(path, options)` to
the loader, and never fails (the embedding is a total function, as the
source raises no error); a second registration for the same path
silently replaces the previously stored options. -/
theorem registerModule_spec (loader : Loader) (reg : ModuleRegistry)
    (path : String) (options : JSVal) (al : Option String) :
    jsGet (registerModule loader reg path options al).1._options
      (loader.toUrl path) = some options ∧
    (∀ k, k ≠ loader.toUrl path →
      jsGet (registerModule loader reg path options al).1._options k =
        jsGet reg._options k) ∧
    (∀ a, al = some a → a ≠ "" →
      jsGet (registerModule loader reg path options al).1._redirects a =
        some path) ∧
    (registerModule loader reg path options al).2 = (path, options) ∧
    (∀ options2 al2,
      jsGet (registerModule loader
        ((registerModule loader reg path options al).1)
        path options2 al2).1._options (loader.toUrl path) = some options2) := by
  refine ⟨?_, ?_, ?_, rfl, ?_⟩
  · rw [registerModule_options]
    exact jsGet_set_same reg._options (loader.toUrl path) options
  · intro k hk
    rw [registerModule_options]
    exact jsGet_set_other reg._options (loader.toUrl path) k options
      (fun h => hk h.symm)
  · intro a hal ha
    subst hal
    rw [registerModule_redirects_truthy loader reg path options a ha]
    exact jsGet_set_same reg._redirects a path
  · intro options2 al2
    rw [registerModule_options]
    exact jsGet_set_same _ (loader.toUrl path) options2

/-- Witness for C4 at a concrete input: registering `p` under alias `a`
records the redirect from `a` to `p`. -/
theorem registerModule_spec_witness :
    jsGet (registerModule idLoader emptyRegistry "p" (JSVal.str "x")
      (some "a")).1._redirects "a" = some "p" :=
  (registerModule_spec idLoader emptyRegistry "p" (JSVal.str "x")
    (some "a")).2.2.1 "a" rfl (by decide)

/-- Claim C5, counterexample: the claim says the last registration for
an alias wins unconditionally, but a registration whose path is the
empty string records a falsy target, which `getRedirect` ignores.  In
`latestEmptyRegistry` the latest registration for alias `a` used the
path `""`, yet `getRedirect` returns `a`, not `""`. -/
theorem last_alias_registration_counterexample :
    jsGet latestEmptyRegistry._redirects "a" = some "" ∧
    (getRedirect latestEmptyRegistry "a").1 = "a" ∧ "a" ≠ "" :=
  ⟨rfl, rfl, by decide⟩

/-- Claim C5 (amended): for a non-empty alias and a non-empty second
path, the last registration for the alias wins: after registering `p1`
and then `p2` under the same alias `a`, `getRedirect a` returns `p2`;
the redirects map stays many-to-one — under `jsGet` the alias `a` now
maps to exactly `p2` and every other alias maps exactly as before, so
several aliases may share one target but each has a single target. -/
theorem last_alias_registration_wins (loader : Loader)
    (reg : ModuleRegistry) (p1 p2 a : String) (o1 o2 : JSVal)
    (ha : a ≠ "") (hp2 : p2 ≠ "") :
    (getRedirect ((registerModule loader
      ((registerModule loader reg p1 o1 (some a)).1)
      p2 o2 (some a)).1) a).1 = p2 ∧
    (∀ b, jsGet ((registerModule loader
      ((registerModule loader reg p1 o1 (some a)).1)
      p2 o2 (some a)).1)._redirects b =
        if b = a then some p2 else jsGet reg._redirects b) := by
  have h1 : ((registerModule loader reg p1 o1 (some a)).1)._redirects =
      (a, p1) :: reg._redirects :=
    registerModule_redirects_truthy loader reg p1 o1 a ha
  have h2 : ((registerModule loader
      ((registerModule loader reg p1 o1 (some a)).1)
      p2 o2 (some a)).1)._redirects =
      (a, p2) :: (a, p1) :: reg._redirects := by
    rw [registerModule_redirects_truthy _ _ p2 o2 a ha, h1]
    rfl
  have hget : ∀ b, jsGet ((registerModule loader
      ((registerModule loader reg p1 o1 (some a)).1)
      p2 o2 (some a)).1)._redirects b =
        if b = a then some p2 else jsGet reg._redirects b := by
    intro b
    rw [h2, jsGet_cons, jsGet_cons]
    by_cases hb : b = a
    · simp [hb]
    · have hab : a ≠ b := fun h => hb h.symm
      simp [hb, hab]
  refine ⟨?_, hget⟩
  simp [getRedirect, hget a, hp2]

/-- Witness for C5 at a concrete input: registering `p` and then `q`
under alias `a` makes `getRedirect a` return `q`. -/
theorem last_alias_registration_wins_witness :
    (getRedirect ((registerModule idLoader
      ((registerModule idLoader emptyRegistry "p" (JSVal.str "x")
        (some "a")).1)
      "q" (JSVal.str "y") (some "a")).1) "a").1 = "q" :=
  (last_alias_registration_wins idLoader emptyRegistry "p" "q" "a"
    (JSVal.str "x") (JSVal.str "y") (by decide) (by decide)).1

/-- Claim C1, counterexample: the claim quantifies over every alias, but
for the empty alias `registerModule` records no redirect, `getRedirect`
returns the empty string, and `getModule` of the empty string throws the
invalid-argument error instead of returning the registered options.  In
`emptyAliasRegistry` the round trip through the empty alias errors
instead of producing the options `"y"` registered second. -/
theorem registry_round_trip_counterexample :
    (getModule idLoader emptyAliasRegistry
      ((getRedirect emptyAliasRegistry "").1)).1 =
      Except.error getModuleErrorMsg ∧
    (Except.error getModuleErrorMsg : Except String JSVal) ≠
      Except.ok (JSVal.str "y") :=
  ⟨rfl, by simp⟩

/-- Claim C1 (amended): for a non-empty alias `a` and non-empty path
`p`, starting from any registry whose options entry under `p` as given
is falsy (in particular from the empty registry) or in which `p` is
already in resolved absolute form, registering `p` under alias `a` and
then registering options `o` for `p` makes `getModule (getRedirect a)`
return `o`. -/
theorem registry_round_trip (loader : Loader) (reg : ModuleRegistry)
    (p a : String) (o1 o : JSVal) (b : Option String) (ha : a ≠ "")
    (hp : p ≠ "")
    (hclean : truthy (jsIndex reg._options p) = false ∨
      loader.toUrl p = p) :
    (getModule loader
      ((registerModule loader
        ((registerModule loader reg p o1 (some a)).1) p o b).1)
      ((getRedirect ((registerModule loader
        ((registerModule loader reg p o1 (some a)).1) p o b).1) a).1)).1 =
      Except.ok o := by
  have h1 : ((registerModule loader reg p o1 (some a)).1)._redirects =
      (a, p) :: reg._redirects :=
    registerModule_redirects_truthy loader reg p o1 a ha
  have hra : jsGet ((registerModule loader
      ((registerModule loader reg p o1 (some a)).1) p o b).1)._redirects a =
      some p := by
    cases b with
    | none =>
        rw [registerModule_redirects_falsy _ _ p o none (Or.inl rfl), h1,
          jsGet_cons]
        simp
    | some bb =>
        by_cases hbb : bb = ""
        · rw [registerModule_redirects_falsy _ _ p o (some bb)
            (Or.inr (by rw [hbb])), h1, jsGet_cons]
          simp
        · rw [registerModule_redirects_truthy _ _ p o bb hbb]
          show jsGet ((bb, p) :: _) a = some p
          rw [jsGet_cons, h1, jsGet_cons]
          by_cases hba : bb = a <;> simp [hba]
  have hget : (getRedirect ((registerModule loader
      ((registerModule loader reg p o1 (some a)).1) p o b).1) a).1 = p := by
    simp [getRedirect, hra, hp]
  rw [hget]
  have hopts : ((registerModule loader
      ((registerModule loader reg p o1 (some a)).1) p o b).1)._options =
      (loader.toUrl p, o) :: (loader.toUrl p, o1) :: reg._options := by
    rw [registerModule_options, registerModule_options]
    rfl
  by_cases hup : loader.toUrl p = p
  · have hfirst : jsIndex ((registerModule loader
        ((registerModule loader reg p o1 (some a)).1) p o b).1)._options p =
        o := by
      rw [hopts, jsIndex, jsGet_cons]
      simp [hup]
    by_cases hto : truthy o = true
    · simp [getModule, hp, hfirst, hto]
    · have hres : jsIndex ((registerModule loader
          ((registerModule loader reg p o1 (some a)).1) p o b).1)._options
          (loader.toUrl p) = o := by
        rw [hopts, jsIndex, jsGet_cons]
        simp
      simp [getModule, hp, hfirst, hto, hres]
  · have hfalsy : truthy (jsIndex reg._options p) = false := by
      rcases hclean with hc | hc
      · exact hc
      · exact absurd hc hup
    have hfirst : jsIndex ((registerModule loader
        ((registerModule loader reg p o1 (some a)).1) p o b).1)._options p =
        jsIndex reg._options p := by
      rw [hopts, jsIndex, jsGet_cons, jsGet_cons]
      simp [hup, jsIndex]
    have hres : jsIndex ((registerModule loader
        ((registerModule loader reg p o1 (some a)).1) p o b).1)._options
        (loader.toUrl p) = o := by
      rw [hopts, jsIndex, jsGet_cons]
      simp
    simp [getModule, hp, hfirst, hfalsy, hres]

/-- Witness for C1 at a concrete input: from the empty registry,
registering `m` under alias `al` and then registering the options `"y"`
for `m` makes the round trip through the alias return `"y"`. -/
theorem registry_round_trip_witness :
    (getModule idLoader
      ((registerModule idLoader
        ((registerModule idLoader emptyRegistry "m" (JSVal.str "x")
          (some "al")).1) "m" (JSVal.str "y") none).1)
      ((getRedirect ((registerModule idLoader
        ((registerModule idLoader emptyRegistry "m" (JSVal.str "x")
          (some "al")).1) "m" (JSVal.str "y") none).1) "al").1)).1 =
      Except.ok (JSVal.str "y") :=
  registry_round_trip idLoader emptyRegistry "m" "al" (JSVal.str "x")
    (JSVal.str "y") none (by decide) (by decide) (Or.inl rfl)

/-- Claim C7 (modelled from the spec, the BoundModule implementation is
not under src/): in every reachable BoundModule state, the module is
Mounted exactly when all Condition terms of its ContextExpression report
a match (vacuously for an empty expression), and it never holds two live
module instances simultaneously. -/
theorem boundModule_mounted_iff_matches (bm : BoundModule)
    (h : ReachableBM bm) :
    (bm.lifecycle = Lifecycle.Mounted ↔ combinedMatch bm = true) ∧
    bm.liveInstances ≤ 1 := by
  have hi := reachableBM_invariant bm h
  refine ⟨hi.1, ?_⟩
  rw [hi.2]
  split <;> simp

/-- Witness for C7 at a concrete input: a BoundModule hydrated with one
matching monitor is a reachable state. -/
theorem boundModule_mounted_iff_matches_witness :
    ((evaluateBM (initialBM [true])).lifecycle = Lifecycle.Mounted ↔
      combinedMatch (evaluateBM (initialBM [true])) = true) ∧
    (evaluateBM (initialBM [true])).liveInstances ≤ 1 :=
  boundModule_mounted_iff_matches (evaluateBM (initialBM [true]))
    (ReachableBM.hydrate [true])

/-- Claim C9: `getModule` never consults the redirects map — its result
depends only on the options map — so for an alias `a` with a registered
redirect to `p` whose target options are stored, `getModule a` still
returns the undefined value when neither `a` nor its resolved absolute
form is bound in the options map. -/
theorem getModule_ignores_redirects (loader : Loader)
    (reg other : ModuleRegistry) (a p : String) (o : JSVal)
    (hreach : ReachableReg loader reg)
    (hred : jsGet reg._redirects a = some p)
    (hstored : jsGet reg._options (loader.toUrl p) = some o)
    (h1 : jsGet reg._options a = none)
    (h2 : jsGet reg._options (loader.toUrl a) = none) :
    (getModule loader reg a).1 = Except.ok JSVal.undefined ∧
    (other._options = reg._options →
      (getModule loader other a).1 = (getModule loader reg a).1) := by
  have hane : a ≠ "" := by
    intro h
    subst h
    rw [reachable_no_empty_alias loader reg hreach] at hred
    exact Option.noConfusion hred
  refine ⟨?_, ?_⟩
  · simp [getModule, hane, jsIndex, h1, h2, truthy]
  · intro h
    exact getModule_depends_only_on_options loader other reg a h

/-- Witness for C9 at a concrete input: `aliasOnlyRegistry` is reachable
by one registration, redirects `a` to `p`, stores options for `p`, and
`getModule a` returns the undefined value. -/
theorem getModule_ignores_redirects_witness :
    (getModule idLoader aliasOnlyRegistry "a").1 = Except.ok JSVal.undefined :=
  (getModule_ignores_redirects idLoader aliasOnlyRegistry aliasOnlyRegistry
    "a" "p" (JSVal.str "x")
    (ReachableReg.step emptyRegistry "p" (JSVal.str "x") (some "a")
      ReachableReg.init)
    rfl rfl rfl rfl).1

end Conditioner
